import Mathlib

/-!
Shallow embedding of the graph-construction logic of `src/app.py`
(the `main` function of the Streamlit AI-concept-graph script), together
with theorems checking the natural-language specification against it.

The embedded fragment is the pure transformation performed by `main`:
  * `global_max` computation (line 57),
  * year filtering and the empty-partition early return (lines 76-79),
  * Pass A, the primary-node loop (lines 89-112),
  * Pass B, the satellite-node / edge loop (lines 115-150).

Numeric values (`works_count`, node sizes) are modelled as rationals.
Python's true division raises `ZeroDivisionError` on plain ints and yields
`nan`/`inf` on the NumPy scalars actually flowing through this code when the
denominator is zero; either way the result is not an ordinary finite number,
so the size computation is modelled as `Option ℚ`, `none` standing for the
non-finite outcome of a zero denominator.
-/

set_option autoImplicit false

namespace AppGraph

/-- A related-concept entry as produced by `json.loads` on the
`related_concepts` column: either a bare identifier string or a structured
object, whose `id` / `display_name` / `category` fields may each be absent
(`sibling.get(...)` then returns `None`, modelled by `Option`). -/
inductive Sibling where
  | scalar (v : String)
  | obj (id? : Option String) (name? : Option String) (cat? : Option String)
deriving DecidableEq

/-- One row of the loaded dataframe, restricted to the columns `main` reads. -/
structure ConceptRecord where
  id : String
  display_name : String
  category : String
  works_count : ℚ
  year : Int
  related_list : List Sibling
deriving DecidableEq

/-- An agraph `Node` as constructed by `main` (the fields it passes).
`size` is `Option ℚ`: `none` models the non-finite value produced when the
size formula divides by a zero `global_max`. -/
structure VNode where
  id : String
  label : String
  size : Option ℚ
  shape : String
  color : String
  title : String
deriving DecidableEq

/-- An agraph `Edge` as constructed by `main` (the fields it passes). -/
structure VEdge where
  source : String
  target : String
  color : String
  width : Nat
deriving DecidableEq

/-- `COLOR_MAP` from lines 24-33 of `src/app.py`, as a partial lookup. -/
def COLOR_MAP : String → Option String := fun c =>
  if c = "Natural Language Processing" then some "#00D084"
  else if c = "Computer Vision" then some "#FF6B6B"
  else if c = "Graph & Network" then some "#4ECDC4"
  else if c = "Machine Learning" then some "#A78BFA"
  else if c = "Robotics & Control" then some "#FF9F40"
  else if c = "AI in Healthcare" then some "#FF6EC7"
  else if c = "Explainable & Trustworthy AI" then some "#FFD93D"
  else if c = "Optimization & Theory" then some "#8D99AE"
  else none

/-- `DEFAULT_COLOR` (line 34). -/
def DEFAULT_COLOR : String := "#CCCCCC"

/-- `COLOR_MAP.get(category, DEFAULT_COLOR)` (line 108). -/
def colorFor (category : String) : String :=
  (COLOR_MAP category).getD DEFAULT_COLOR

/-- `MIN_NODE_SIZE` (line 62). -/
def MIN_NODE_SIZE : ℚ := 10

/-- `MAX_NODE_SIZE` (line 63). -/
def MAX_NODE_SIZE : ℚ := 60

/-- The hard-coded hub name tested for on line 90. -/
def EXCLUDED : String := "Computer Science and Engineering"

/-- Python's substring containment `needle in hay` for strings. -/
def pyContains (needle hay : String) : Bool :=
  hay.toList.tails.any (fun t => needle.toList.isPrefixOf t)

/-- The line-90 test `"Computer Science and Engineering" in row['display_name']`. -/
def isExcluded (row : ConceptRecord) : Bool :=
  pyContains EXCLUDED row.display_name

/-- Line 57: `global_max = df['works_count'].max() if not df.empty else 1000`,
taken over the WHOLE table, not the year partition. -/
def globalMax (records : List ConceptRecord) : ℚ :=
  match records with
  | [] => 1000
  | r :: rs => (rs.map (·.works_count)).foldl max r.works_count

/-- Line 100: `size = MIN_NODE_SIZE + (val / global_max) * (MAX_NODE_SIZE - MIN_NODE_SIZE)`.
`none` when the denominator is zero (no substitution happens in the code;
Python's division then yields no ordinary finite number). -/
def primarySize (val gmax : ℚ) : Option ℚ :=
  if gmax = 0 then none
  else some (MIN_NODE_SIZE + (val / gmax) * (MAX_NODE_SIZE - MIN_NODE_SIZE))

/-- The tooltip string of line 110. -/
def primaryTitle (name cat : String) (val : ℚ) : String :=
  "Node: " ++ name ++ "\nCat: " ++ cat ++ "\nWorks: " ++ toString val

/-- The `Node(...)` constructed on lines 103-111 for one primary row. -/
def mkPrimary (row : ConceptRecord) (gmax : ℚ) : VNode :=
  { id := row.id
    label := row.display_name
    size := primarySize row.works_count gmax
    shape := "dot"
    color := colorFor row.category
    title := primaryTitle row.display_name row.category row.works_count }

/-- Pass A (lines 89-112): one node per non-excluded row of the year
partition, and the ids entered into `added_node_ids`. The recursion emits
nodes in row order, exactly as the loop's `nodes.append` does. -/
def passA : List ConceptRecord → ℚ → List VNode × List String
  | [], _ => ([], [])
  | row :: rest, gmax =>
    let tail := passA rest gmax
    if isExcluded row then tail
    else (mkPrimary row gmax :: tail.1, row.id :: tail.2)

/-- Lines 121-128: the target id resolved from a related entry
(`sibling.get('id')` for a dict, the value itself for a bare id). -/
def resolvedTarget : Sibling → Option String
  | .scalar v => some v
  | .obj i _ _ => i

/-- Lines 121-128: the target display name (`.get('display_name', 'Unknown')`
for a dict, the literal `"Unknown"` for a bare id). -/
def resolvedName : Sibling → String
  | .scalar _ => "Unknown"
  | .obj _ n _ => n.getD "Unknown"

/-- Lines 124/128: the target category (computed by the code but never used
downstream; kept for fidelity). -/
def resolvedCat : Sibling → String
  | .scalar _ => "Other"
  | .obj _ _ c => c.getD "Other"

/-- Line 130's `if not target`: Python falsiness of the resolved target,
true for a missing id (`None`) and for the empty string. -/
def pyFalsy : Option String → Bool
  | none => true
  | some s => s == ""

/-- The satellite `Node(...)` of lines 134-141. -/
def satNode (target : String) (targetName : String) : VNode :=
  { id := target
    label := targetName
    size := some 10
    shape := "dot"
    color := "#555555"
    title := "Related Concept" }

/-- The `Edge(...)` of lines 145-150. -/
def mkEdge (source target : String) : VEdge :=
  { source := source, target := target, color := "#555555", width := 1 }

/-- The mutable working state of Pass B: the `nodes` list, the `edges` list
and the `added_node_ids` set (modelled as the list of ids added, in order;
only membership is ever consulted). -/
structure BState where
  nodes : List VNode
  edges : List VEdge
  seen : List String
deriving DecidableEq

/-- The body of the inner loop of Pass B (lines 119-150) for one related
entry: resolve the target, skip it when falsy, create a satellite node when
the target is unseen, and append the edge. -/
def stepSibling (source : String) (st : BState) (sib : Sibling) : BState :=
  let t := resolvedTarget sib
  if pyFalsy t then st
  else
    let target := t.getD ""
    let st1 :=
      if target ∈ st.seen then st
      else { st with
              nodes := st.nodes ++ [satNode target (resolvedName sib)]
              seen := st.seen ++ [target] }
    { st1 with edges := st1.edges ++ [mkEdge source target] }

/-- The inner loop of Pass B over one row's `related_list`. -/
def stepSiblings (source : String) : BState → List Sibling → BState
  | st, [] => st
  | st, sib :: rest => stepSiblings source (stepSibling source st sib) rest

/-- The outer loop of Pass B (line 115): every row of the year partition,
excluded or not — the loop has no exclusion check. -/
def passB : BState → List ConceptRecord → BState
  | st, [] => st
  | st, row :: rest => passB (stepSiblings row.id st row.related_list) rest

/-- Line 76: `df_year = df[df['year'] == year]`. -/
def partitionByYear (records : List ConceptRecord) (year : Int) : List ConceptRecord :=
  records.filter (fun r => r.year == year)

/-- The outcome of one run of the build: either the lines-77-79 early return
(`st.warning(...)` and a plain `return`, a normal non-error result carrying
no graph), or the finished node and edge lists handed to `agraph`. -/
inductive BuildResult where
  | emptyPartition
  | graph (nodes : List VNode) (edges : List VEdge)
deriving DecidableEq

/-- The node list of a build outcome (empty for the empty-partition return). -/
def BuildResult.nodes : BuildResult → List VNode
  | .emptyPartition => []
  | .graph ns _ => ns

/-- The edge list of a build outcome (empty for the empty-partition return). -/
def BuildResult.edges : BuildResult → List VEdge
  | .emptyPartition => []
  | .graph _ es => es

/-- The graph construction of `main` (lines 57, 76-150): filter to the
selected year, return the empty-partition signal when nothing matches,
otherwise run Pass A and then Pass B threading the shared `nodes` list and
`added_node_ids` set. -/
def build (records : List ConceptRecord) (year : Int) : BuildResult :=
  let part := partitionByYear records year
  if part.isEmpty then .emptyPartition
  else
    let gmax := globalMax records
    let a := passA part gmax
    let st := passB { nodes := a.1, edges := [], seen := a.2 } part
    .graph st.nodes st.edges

/-- The invariant threaded through Pass B for the uniqueness analysis: node
ids are pairwise distinct and every node's id has been entered into the
`added_node_ids` set. -/
def NodesInv (st : BState) : Prop :=
  (st.nodes.map VNode.id).Nodup ∧ ∀ n ∈ st.nodes, n.id ∈ st.seen

/-- A record with the related entries whose resolved target is falsy removed
(used to state that such entries contribute nothing to the build). -/
def dropFalsy (r : ConceptRecord) : ConceptRecord :=
  { r with related_list := r.related_list.filter (fun sib => !pyFalsy (resolvedTarget sib)) }

/-- Shorthand constructor for concrete test records. -/
def mkRec (i n c : String) (w : ℚ) (y : Int) (rel : List Sibling) : ConceptRecord :=
  { id := i, display_name := n, category := c, works_count := w, year := y,
    related_list := rel }

/-- Concrete input for C1: a record whose display name matches the excluded
hub substring and which carries one related entry. -/
def c1rec : ConceptRecord :=
  mkRec "A" "Computer Science and Engineering" "Machine Learning" 5 2020 [.scalar "X"]

/-- Concrete input for C2: an excluded record with one related entry. -/
def c2rec : ConceptRecord :=
  mkRec "H" "Computer Science and Engineering" "Machine Learning" 7 2020 [.scalar "X2"]

/-- Concrete inputs for C3: two same-year records sharing the id `"A"`. -/
def c3recA : ConceptRecord := mkRec "A" "Alpha" "Machine Learning" 1 2020 []

/-- Second record with the duplicate id for C3. -/
def c3recB : ConceptRecord := mkRec "A" "Alpha again" "Computer Vision" 2 2020 []

/-- Concrete input for the C3 witness: two distinct-id records with an edge. -/
def c3wrecs : List ConceptRecord :=
  [mkRec "A" "Alpha" "Machine Learning" 100 2020 [.scalar "B"],
   mkRec "B" "Beta" "Computer Vision" 50 2020 []]

/-- Concrete input for C4: a single record whose works_count is 0, making the
whole-table maximum 0. -/
def c4rec : ConceptRecord := mkRec "Z" "Zero" "Machine Learning" 0 2020 []

/-- Concrete input for the C5 witness (the spec's worked scenario: A with 100
works and B with 50, global max 100). -/
def c5recs : List ConceptRecord :=
  [mkRec "A" "Alpha" "Machine Learning" 100 2020 [.scalar "B"],
   mkRec "B" "Beta" "Computer Vision" 50 2020 []]

/-- Concrete input for the C6 witness. -/
def c6recs : List ConceptRecord :=
  [mkRec "A" "Alpha" "Machine Learning" 100 2020 [],
   mkRec "B" "Beta" "Computer Vision" 50 2020 []]

/-- Concrete input for the C7 witness: one record referencing a satellite. -/
def c7recs : List ConceptRecord :=
  [mkRec "A" "Alpha" "Machine Learning" 10 2020
    [.obj (some "X") (some "Foo") (some "Unknown")]]

/-- Concrete state for the C8 witness. -/
def c8st : BState :=
  { nodes := [satNode "K" "Kay"], edges := [], seen := ["K"] }

/-- Concrete input for the C9 witness: a 2020 record queried at year 1999. -/
def c9rec : ConceptRecord := mkRec "A" "Alpha" "Machine Learning" 3 2020 []

/-- Concrete state for the C10 witness: the target `"X"` is already seen. -/
def c10st : BState :=
  { nodes := [satNode "X" "Ex"], edges := [], seen := ["X"] }

/-! ### Helper lemmas -/

theorem foldl_max_le_foldl_max {a b : ℚ} (l : List ℚ) (h : a ≤ b) :
    l.foldl max a ≤ l.foldl max b := by
  induction l generalizing a b with
  | nil => exact h
  | cons x xs ih => exact ih (max_le_max h (le_refl x))

theorem le_foldl_max (l : List ℚ) (a : ℚ) : a ≤ l.foldl max a := by
  induction l generalizing a with
  | nil => exact le_refl a
  | cons x xs ih => exact le_trans (le_max_left a x) (ih (max a x))

theorem mem_le_foldl_max {x : ℚ} (l : List ℚ) (a : ℚ) (h : x ∈ l) :
    x ≤ l.foldl max a := by
  induction l generalizing a with
  | nil => cases h
  | cons y ys ih =>
    rcases List.mem_cons.mp h with rfl | hy
    · exact le_trans (le_trans (le_max_right a x) (le_foldl_max ys _)) (le_refl _)
    · exact ih _ hy

theorem le_globalMax {r : ConceptRecord} {records : List ConceptRecord}
    (h : r ∈ records) : r.works_count ≤ globalMax records := by
  cases records with
  | nil => cases h
  | cons r0 rs =>
    rcases List.mem_cons.mp h with rfl | hr
    · exact le_foldl_max _ _
    · exact mem_le_foldl_max _ _ (List.mem_map_of_mem _ hr)

theorem passA_snd (part : List ConceptRecord) (g : ℚ) :
    (passA part g).2 = (part.filter (fun r => !isExcluded r)).map ConceptRecord.id := by
  induction part with
  | nil => rfl
  | cons row rest ih =>
    by_cases h : isExcluded row
    · simp [passA, h, List.filter_cons, ih]
    · simp [passA, h, List.filter_cons, ih]

theorem passA_ids (part : List ConceptRecord) (g : ℚ) :
    (passA part g).1.map VNode.id = (passA part g).2 := by
  induction part with
  | nil => rfl
  | cons row rest ih =>
    by_cases h : isExcluded row
    · simp [passA, h, ih]
    · simp [passA, h, ih, mkPrimary]

theorem mem_passA {part : List ConceptRecord} {r : ConceptRecord} (g : ℚ)
    (hr : r ∈ part) (hex : isExcluded r = false) :
    mkPrimary r g ∈ (passA part g).1 := by
  induction part with
  | nil => cases hr
  | cons row rest ih =>
    rcases List.mem_cons.mp hr with rfl | hmem
    · simp [passA, hex]
    · by_cases h : isExcluded row
      · simpa [passA, h] using ih hmem
      · simp [passA, h]
        exact Or.inr (ih hmem)

theorem stepSibling_extends (source : String) (st : BState) (sib : Sibling) :
    ∃ newN newE newS,
      (stepSibling source st sib).nodes = st.nodes ++ newN ∧
      (stepSibling source st sib).edges = st.edges ++ newE ∧
      (stepSibling source st sib).seen = st.seen ++ newS ∧
      ∀ n ∈ newN, n.size = some 10 ∧ n.shape = "dot" ∧ n.color = "#555555" ∧
        n.title = "Related Concept" := by
  by_cases hf : pyFalsy (resolvedTarget sib)
  · exact ⟨[], [], [], by simp [stepSibling, hf], by simp [stepSibling, hf],
      by simp [stepSibling, hf], by simp⟩
  · by_cases hm : (resolvedTarget sib).getD "" ∈ st.seen
    · exact ⟨[], [mkEdge source ((resolvedTarget sib).getD "")], [],
        by simp [stepSibling, hf, hm], by simp [stepSibling, hf, hm],
        by simp [stepSibling, hf, hm], by simp⟩
    · refine ⟨[satNode ((resolvedTarget sib).getD "") (resolvedName sib)],
        [mkEdge source ((resolvedTarget sib).getD "")],
        [(resolvedTarget sib).getD ""],
        by simp [stepSibling, hf, hm], by simp [stepSibling, hf, hm],
        by simp [stepSibling, hf, hm], ?_⟩
      intro n hn
      rcases List.mem_singleton.mp hn with rfl
      exact ⟨rfl, rfl, rfl, rfl⟩

theorem stepSiblings_extends (source : String) (st : BState) (sibs : List Sibling) :
    ∃ newN newE newS,
      (stepSiblings source st sibs).nodes = st.nodes ++ newN ∧
      (stepSiblings source st sibs).edges = st.edges ++ newE ∧
      (stepSiblings source st sibs).seen = st.seen ++ newS ∧
      ∀ n ∈ newN, n.size = some 10 ∧ n.shape = "dot" ∧ n.color = "#555555" ∧
        n.title = "Related Concept" := by
  induction sibs generalizing st with
  | nil => exact ⟨[], [], [], by simp [stepSiblings], by simp [stepSiblings],
      by simp [stepSiblings], by simp⟩
  | cons sib rest ih =>
    obtain ⟨n1, e1, s1, hn1, he1, hs1, hsat1⟩ := stepSibling_extends source st sib
    obtain ⟨n2, e2, s2, hn2, he2, hs2, hsat2⟩ := ih (stepSibling source st sib)
    refine ⟨n1 ++ n2, e1 ++ e2, s1 ++ s2, ?_, ?_, ?_, ?_⟩
    · simp [stepSiblings, hn2, hn1]
    · simp [stepSiblings, he2, he1]
    · simp [stepSiblings, hs2, hs1]
    · intro n hn
      rcases List.mem_append.mp hn with h1 | h2
      · exact hsat1 n h1
      · exact hsat2 n h2

theorem passB_extends (st : BState) (part : List ConceptRecord) :
    ∃ newN newE newS,
      (passB st part).nodes = st.nodes ++ newN ∧
      (passB st part).edges = st.edges ++ newE ∧
      (passB st part).seen = st.seen ++ newS ∧
      ∀ n ∈ newN, n.size = some 10 ∧ n.shape = "dot" ∧ n.color = "#555555" ∧
        n.title = "Related Concept" := by
  induction part generalizing st with
  | nil => exact ⟨[], [], [], by simp [passB], by simp [passB],
      by simp [passB], by simp⟩
  | cons row rest ih =>
    obtain ⟨n1, e1, s1, hn1, he1, hs1, hsat1⟩ :=
      stepSiblings_extends row.id st row.related_list
    obtain ⟨n2, e2, s2, hn2, he2, hs2, hsat2⟩ :=
      ih (stepSiblings row.id st row.related_list)
    refine ⟨n1 ++ n2, e1 ++ e2, s1 ++ s2, ?_, ?_, ?_, ?_⟩
    · simp [passB, hn2, hn1]
    · simp [passB, he2, he1]
    · simp [passB, hs2, hs1]
    · intro n hn
      rcases List.mem_append.mp hn with h1 | h2
      · exact hsat1 n h1
      · exact hsat2 n h2

theorem stepSibling_inv {st : BState} (source : String) (sib : Sibling)
    (h : NodesInv st) : NodesInv (stepSibling source st sib) := by
  by_cases hf : pyFalsy (resolvedTarget sib)
  · simpa [stepSibling, hf] using h
  · by_cases hm : (resolvedTarget sib).getD "" ∈ st.seen
    · simpa [stepSibling, hf, hm, NodesInv] using h
    · obtain ⟨hnd, hsub⟩ := h
      have hnotid : (resolvedTarget sib).getD "" ∉ st.nodes.map VNode.id := by
        intro hmem
        obtain ⟨n, hn, hid⟩ := List.mem_map.mp hmem
        exact hm (hid ▸ hsub n hn)
      constructor
      · simp only [stepSibling, hf, hm]
        simp only [Bool.false_eq_true, if_false, if_neg hm]
        simp [List.nodup_append, hnd, satNode]
        intro n hn hid
        exact hnotid (hid ▸ List.mem_map_of_mem VNode.id hn)
      · simp only [stepSibling, hf, hm]
        simp only [Bool.false_eq_true, if_false, if_neg hm]
        intro n hn
        rcases List.mem_append.mp hn with h1 | h2
        · exact List.mem_append_left _ (hsub n h1)
        · rcases List.mem_singleton.mp h2 with rfl
          simp [satNode]

theorem stepSiblings_inv {st : BState} (source : String) (sibs : List Sibling)
    (h : NodesInv st) : NodesInv (stepSiblings source st sibs) := by
  induction sibs generalizing st with
  | nil => simpa [stepSiblings] using h
  | cons sib rest ih => exact ih (stepSibling_inv source sib h)

theorem passB_inv {st : BState} (part : List ConceptRecord)
    (h : NodesInv st) : NodesInv (passB st part) := by
  induction part generalizing st with
  | nil => simpa [passB] using h
  | cons row rest ih => exact ih (stepSiblings_inv row.id row.related_list h)

theorem stepSibling_falsy (source : String) (st : BState) (sib : Sibling)
    (h : pyFalsy (resolvedTarget sib) = true) :
    stepSibling source st sib = st := by
  simp [stepSibling, h]

theorem stepSiblings_cons (source : String) (st : BState) (sib : Sibling)
    (rest : List Sibling) :
    stepSiblings source st (sib :: rest) =
      stepSiblings source (stepSibling source st sib) rest := rfl

theorem passB_cons (st : BState) (row : ConceptRecord) (rest : List ConceptRecord) :
    passB st (row :: rest) =
      passB (stepSiblings row.id st row.related_list) rest := rfl

theorem passA_cons (row : ConceptRecord) (rest : List ConceptRecord) (g : ℚ) :
    passA (row :: rest) g =
      if isExcluded row then passA rest g
      else (mkPrimary row g :: (passA rest g).1, row.id :: (passA rest g).2) := rfl

theorem stepSiblings_filter_falsy (source : String) (st : BState) (sibs : List Sibling) :
    stepSiblings source st (sibs.filter (fun sib => !pyFalsy (resolvedTarget sib))) =
      stepSiblings source st sibs := by
  induction sibs generalizing st with
  | nil => rfl
  | cons sib rest ih =>
    by_cases h : pyFalsy (resolvedTarget sib)
    · have hf : (sib :: rest).filter (fun s => !pyFalsy (resolvedTarget s)) =
          rest.filter (fun s => !pyFalsy (resolvedTarget s)) := by
        simp [List.filter_cons, h]
      rw [hf, ih st, stepSiblings_cons, stepSibling_falsy source st sib h]
    · have hf : (sib :: rest).filter (fun s => !pyFalsy (resolvedTarget s)) =
          sib :: rest.filter (fun s => !pyFalsy (resolvedTarget s)) := by
        simp [List.filter_cons, h]
      rw [hf, stepSiblings_cons, stepSiblings_cons, ih]

theorem passB_dropFalsy (st : BState) (part : List ConceptRecord) :
    passB st (part.map dropFalsy) = passB st part := by
  induction part generalizing st with
  | nil => rfl
  | cons row rest ih =>
    rw [List.map_cons, passB_cons, passB_cons, ih]
    have hid : (dropFalsy row).id = row.id := rfl
    have hrel : (dropFalsy row).related_list =
        row.related_list.filter (fun sib => !pyFalsy (resolvedTarget sib)) := rfl
    rw [hid, hrel, stepSiblings_filter_falsy]

theorem partition_dropFalsy (records : List ConceptRecord) (year : Int) :
    partitionByYear (records.map dropFalsy) year =
      (partitionByYear records year).map dropFalsy := by
  induction records with
  | nil => rfl
  | cons r rs ih =>
    by_cases h : r.year == year
    · simp [partitionByYear, dropFalsy, h] at ih ⊢
      exact ih
    · simp [partitionByYear, dropFalsy, h] at ih ⊢
      exact ih

theorem globalMax_dropFalsy (records : List ConceptRecord) :
    globalMax (records.map dropFalsy) = globalMax records := by
  cases records with
  | nil => rfl
  | cons r rs =>
    simp only [List.map_cons, globalMax, dropFalsy, List.map_map]
    rfl

theorem mkPrimary_dropFalsy (r : ConceptRecord) (g : ℚ) :
    mkPrimary (dropFalsy r) g = mkPrimary r g := rfl

theorem passA_dropFalsy (part : List ConceptRecord) (g : ℚ) :
    passA (part.map dropFalsy) g = passA part g := by
  induction part with
  | nil => rfl
  | cons row rest ih =>
    rw [List.map_cons, passA_cons, passA_cons, ih]
    have hex : isExcluded (dropFalsy row) = isExcluded row := rfl
    have hid : (dropFalsy row).id = row.id := rfl
    rw [hex, hid, mkPrimary_dropFalsy]

theorem isEmpty_map_eq {α β : Type} (f : α → β) (l : List α) :
    (l.map f).isEmpty = l.isEmpty := by
  cases l <;> rfl

theorem build_dropFalsy (records : List ConceptRecord) (year : Int) :
    build (records.map dropFalsy) year = build records year := by
  simp only [build, partition_dropFalsy, globalMax_dropFalsy, passA_dropFalsy,
    passB_dropFalsy, isEmpty_map_eq]

theorem nodes_graph (ns : List VNode) (es : List VEdge) :
    (BuildResult.graph ns es).nodes = ns := rfl

theorem edges_graph (ns : List VNode) (es : List VEdge) :
    (BuildResult.graph ns es).edges = es := rfl

theorem build_eq_graph (records : List ConceptRecord) (year : Int)
    (h : partitionByYear records year ≠ []) :
    build records year = .graph
      (passB { nodes := (passA (partitionByYear records year) (globalMax records)).1,
               edges := [],
               seen := (passA (partitionByYear records year) (globalMax records)).2 }
        (partitionByYear records year)).nodes
      (passB { nodes := (passA (partitionByYear records year) (globalMax records)).1,
               edges := [],
               seen := (passA (partitionByYear records year) (globalMax records)).2 }
        (partitionByYear records year)).edges := by
  have hempty : (partitionByYear records year).isEmpty = false := by
    cases hp : partitionByYear records year with
    | nil => exact absurd hp h
    | cons a l => rfl
  simp only [build, hempty, Bool.false_eq_true, if_false]

theorem mem_of_mem_partition {r : ConceptRecord} {records : List ConceptRecord}
    {year : Int} (h : r ∈ partitionByYear records year) : r ∈ records := by
  simp only [partitionByYear] at h
  exact List.mem_of_mem_filter h

/-! ### Claim theorems -/

/-- C1: the claim says every edge's source and target ids appear as node ids
in the returned node set, including edges whose source record matches the
excluded name substring. Evaluating the code at the failing input `c1rec`
(an excluded record with one related entry): Pass B, which has no exclusion
check, emits the edge from the excluded record, whose source id `"A"` is not
the id of any returned node — a dangling edge endpoint. -/
theorem C1_dangling_edge_from_excluded_source :
    (build [c1rec] 2020).edges = [mkEdge "A" "X"] ∧
    "A" ∉ (build [c1rec] 2020).nodes.map VNode.id := by decide

/-- C2: the claim says a record whose display name contains the excluded
substring contributes no node, no outgoing edge and no satellite by way of
that record. Evaluating the code at the failing input `c2rec`: the excluded
record `"H"` does get no node, but Pass B (which lacks the exclusion check)
still appends the outgoing edge `("H","X2")` and creates the satellite
`"X2"` solely by way of `"H"`. -/
theorem C2_excluded_record_still_emits_edges :
    (build [c2rec] 2020).edges = [mkEdge "H" "X2"] ∧
    (build [c2rec] 2020).nodes.map VNode.id = ["X2"] ∧
    "H" ∉ (build [c2rec] 2020).nodes.map VNode.id := by decide

/-- C3 counterexample: the claim that node ids are pairwise distinct for
EVERY input fails — two same-year records sharing the id `"A"` yield two
nodes with id `"A"`, because the Pass A append has no duplicate check. -/
theorem C3_duplicate_primary_ids :
    (build [c3recA, c3recB] 2020).nodes.map VNode.id = ["A", "A"] ∧
    ¬ ((build [c3recA, c3recB] 2020).nodes.map VNode.id).Nodup := by decide

/-- C3 amended: node ids of the returned set are pairwise distinct provided
the ids of the non-excluded records of the selected-year partition are
pairwise distinct; the builder deduplicates related-reference targets (the
`added_node_ids` check of Pass B) but assumes distinctness of the primary
records themselves. -/
theorem C3_unique_ids_of_distinct_partition (records : List ConceptRecord)
    (year : Int)
    (h : (((partitionByYear records year).filter
        (fun r => !isExcluded r)).map ConceptRecord.id).Nodup) :
    ((build records year).nodes.map VNode.id).Nodup := by
  by_cases hp : partitionByYear records year = []
  · have hb : build records year = .emptyPartition := by simp [build, hp]
    rw [hb]
    exact List.nodup_nil
  · rw [build_eq_graph records year hp, nodes_graph]
    have hinv : NodesInv
        { nodes := (passA (partitionByYear records year) (globalMax records)).1,
          edges := [],
          seen := (passA (partitionByYear records year) (globalMax records)).2 } := by
      constructor
      · show ((passA (partitionByYear records year) (globalMax records)).1.map
          VNode.id).Nodup
        rw [passA_ids, passA_snd]
        exact h
      · intro n hn
        show n.id ∈ (passA (partitionByYear records year) (globalMax records)).2
        rw [← passA_ids]
        exact List.mem_map_of_mem VNode.id hn
    exact (passB_inv _ hinv).1

/-- C3 witness: the amended uniqueness theorem applied to a concrete
two-record partition with distinct ids. -/
theorem C3_unique_ids_witness :
    ((((partitionByYear c3wrecs 2020).filter
        (fun r => !isExcluded r)).map ConceptRecord.id)).Nodup ∧
    ((build c3wrecs 2020).nodes.map VNode.id).Nodup :=
  ⟨by decide, C3_unique_ids_of_distinct_partition c3wrecs 2020 (by decide)⟩

/-- C4 counterexample: the claim that a zero `normalization_max` is replaced
by a safe non-zero default (with all primary sizes at `size_range.min`)
fails — for the one-record table `c4rec` with `works_count = 0` the computed
global max is 0, no substitution happens (line 57 only guards the empty
table), and the size formula divides by zero, so the primary node's size is
the non-finite `none` rather than `MIN_NODE_SIZE`. -/
theorem C4_zero_normalization_divides_by_zero :
    globalMax [c4rec] = 0 ∧
    (build [c4rec] 2020).nodes.map VNode.size = [none] ∧
    (build [c4rec] 2020).nodes.map VNode.size ≠ [some MIN_NODE_SIZE] := by decide

/-- C4 amended: only the empty-table case is guarded — there the code
substitutes the non-zero default 1000 and the build returns the
empty-partition result before any division; with a zero denominator the
size formula yields no finite size at all, and with any non-zero denominator
it is the plain linear-interpolation formula. -/
theorem C4_default_only_for_empty_dataset :
    globalMax [] = 1000 ∧ (1000 : ℚ) ≠ 0 ∧
    (∀ year : Int, build [] year = .emptyPartition) ∧
    (∀ val : ℚ, primarySize val 0 = none) ∧
    (∀ val g : ℚ, g ≠ 0 →
      primarySize val g =
        some (MIN_NODE_SIZE + (val / g) * (MAX_NODE_SIZE - MIN_NODE_SIZE))) := by
  refine ⟨rfl, by norm_num, fun year => rfl, fun val => rfl, fun val g hg => ?_⟩
  simp [primarySize, hg]

/-- C4 witness: the amended theorem evaluated at concrete inputs (the empty
table, a zero denominator, and the spec's worked example 50 of 100 giving
size 35). -/
theorem C4_default_witness :
    globalMax [] = 1000 ∧ primarySize 0 0 = none ∧ primarySize 50 100 = some 35 := by
  refine ⟨C4_default_only_for_empty_dataset.1,
    C4_default_only_for_empty_dataset.2.2.2.1 0, ?_⟩
  rw [C4_default_only_for_empty_dataset.2.2.2.2 50 100 (by norm_num)]
  norm_num [MIN_NODE_SIZE, MAX_NODE_SIZE]

/-- C5: every non-excluded record of the selected-year partition yields a
primary node in the build output whose size is exactly
`MIN_NODE_SIZE + (works_count / normalization_max) * (MAX_NODE_SIZE - MIN_NODE_SIZE)`
with the whole-table maximum as denominator, and the formula is unclamped:
whenever a value exceeds the (positive) normalization maximum the resulting
size strictly exceeds `MAX_NODE_SIZE`. -/
theorem C5_size_formula_unclamped (records : List ConceptRecord) (year : Int)
    (r : ConceptRecord) (hr : r ∈ partitionByYear records year)
    (hex : isExcluded r = false) (hg : globalMax records ≠ 0)
    (val g : ℚ) (hg0 : 0 < g) (hlt : g < val) :
    mkPrimary r (globalMax records) ∈ (build records year).nodes ∧
    (mkPrimary r (globalMax records)).size =
      some (MIN_NODE_SIZE +
        (r.works_count / globalMax records) * (MAX_NODE_SIZE - MIN_NODE_SIZE)) ∧
    MAX_NODE_SIZE < MIN_NODE_SIZE + (val / g) * (MAX_NODE_SIZE - MIN_NODE_SIZE) := by
  refine ⟨?_, ?_, ?_⟩
  · have hp : partitionByYear records year ≠ [] := by
      intro h0
      rw [h0] at hr
      cases hr
    rw [build_eq_graph records year hp, nodes_graph]
    obtain ⟨newN, newE, newS, hn, _, _, _⟩ :=
      passB_extends
        { nodes := (passA (partitionByYear records year) (globalMax records)).1,
          edges := [],
          seen := (passA (partitionByYear records year) (globalMax records)).2 }
        (partitionByYear records year)
    rw [hn]
    exact List.mem_append_left _ (mem_passA (globalMax records) hr hex)
  · simp [mkPrimary, primarySize, hg]
  · have h1 : 1 < val / g := (one_lt_div hg0).mpr hlt
    simp only [MIN_NODE_SIZE, MAX_NODE_SIZE]
    linarith

/-- C5 witness: the theorem applied at the spec's worked scenario (record B
with 50 works, whole-table maximum 100) and at the overflow pair
`val = 200 > g = 100`. -/
theorem C5_size_formula_witness :
    mkPrimary (mkRec "B" "Beta" "Computer Vision" 50 2020 []) (globalMax c5recs)
        ∈ (build c5recs 2020).nodes ∧
    (mkPrimary (mkRec "B" "Beta" "Computer Vision" 50 2020 []) (globalMax c5recs)).size =
      some (MIN_NODE_SIZE +
        ((mkRec "B" "Beta" "Computer Vision" 50 2020 []).works_count / globalMax c5recs) *
          (MAX_NODE_SIZE - MIN_NODE_SIZE)) ∧
    MAX_NODE_SIZE < MIN_NODE_SIZE + ((200 : ℚ) / 100) * (MAX_NODE_SIZE - MIN_NODE_SIZE) :=
  C5_size_formula_unclamped c5recs 2020 (mkRec "B" "Beta" "Computer Vision" 50 2020 [])
    (by decide) (by decide) (by decide) 200 100 (by norm_num) (by norm_num)

/-- C6: for two non-excluded records of the same build (whole-table
works_counts non-negative), if A's works_count exceeds B's then both primary
nodes are in the output and A's size is at least B's size. -/
theorem C6_size_monotone (records : List ConceptRecord) (year : Int)
    (a b : ConceptRecord)
    (ha : a ∈ partitionByYear records year) (hb : b ∈ partitionByYear records year)
    (hexa : isExcluded a = false) (hexb : isExcluded b = false)
    (hnn : ∀ r ∈ records, 0 ≤ r.works_count)
    (hab : b.works_count < a.works_count) :
    mkPrimary a (globalMax records) ∈ (build records year).nodes ∧
    mkPrimary b (globalMax records) ∈ (build records year).nodes ∧
    ∃ sa sb : ℚ, (mkPrimary a (globalMax records)).size = some sa ∧
      (mkPrimary b (globalMax records)).size = some sb ∧ sb ≤ sa := by
  have hp : partitionByYear records year ≠ [] := by
    intro h0
    rw [h0] at ha
    cases ha
  have hga : a.works_count ≤ globalMax records := le_globalMax (mem_of_mem_partition ha)
  have hbpos : 0 ≤ b.works_count := hnn b (mem_of_mem_partition hb)
  have hgpos : 0 < globalMax records := lt_of_lt_of_le (lt_of_le_of_lt hbpos hab) hga
  have hg : globalMax records ≠ 0 := ne_of_gt hgpos
  obtain ⟨newN, newE, newS, hn, _, _, _⟩ :=
    passB_extends
      { nodes := (passA (partitionByYear records year) (globalMax records)).1,
        edges := [],
        seen := (passA (partitionByYear records year) (globalMax records)).2 }
      (partitionByYear records year)
  refine ⟨?_, ?_, ?_⟩
  · rw [build_eq_graph records year hp, nodes_graph, hn]
    exact List.mem_append_left _ (mem_passA (globalMax records) ha hexa)
  · rw [build_eq_graph records year hp, nodes_graph, hn]
    exact List.mem_append_left _ (mem_passA (globalMax records) hb hexb)
  · refine ⟨MIN_NODE_SIZE + (a.works_count / globalMax records) *
        (MAX_NODE_SIZE - MIN_NODE_SIZE),
      MIN_NODE_SIZE + (b.works_count / globalMax records) *
        (MAX_NODE_SIZE - MIN_NODE_SIZE), ?_, ?_, ?_⟩
    · simp [mkPrimary, primarySize, hg]
    · simp [mkPrimary, primarySize, hg]
    · have hdiv : b.works_count / globalMax records ≤
          a.works_count / globalMax records := by
        apply div_le_div_of_nonneg_right (le_of_lt hab) (le_of_lt hgpos)
      simp only [MIN_NODE_SIZE, MAX_NODE_SIZE]
      linarith

/-- C6 witness: monotonicity applied to the concrete two-record build
`c6recs` (works 100 versus works 50). -/
theorem C6_size_monotone_witness :
    mkPrimary (mkRec "A" "Alpha" "Machine Learning" 100 2020 []) (globalMax c6recs)
        ∈ (build c6recs 2020).nodes ∧
    mkPrimary (mkRec "B" "Beta" "Computer Vision" 50 2020 []) (globalMax c6recs)
        ∈ (build c6recs 2020).nodes ∧
    ∃ sa sb : ℚ,
      (mkPrimary (mkRec "A" "Alpha" "Machine Learning" 100 2020 []) (globalMax c6recs)).size
        = some sa ∧
      (mkPrimary (mkRec "B" "Beta" "Computer Vision" 50 2020 []) (globalMax c6recs)).size
        = some sb ∧ sb ≤ sa :=
  C6_size_monotone c6recs 2020
    (mkRec "A" "Alpha" "Machine Learning" 100 2020 [])
    (mkRec "B" "Beta" "Computer Vision" 50 2020 [])
    (by decide) (by decide) (by decide) (by decide) (by decide) (by norm_num [mkRec])

/-- C7: the build's node list is the Pass A primary nodes followed by the
Pass B satellites, and every satellite has the fixed size 10, the fixed gray
color `"#555555"` and the fixed tooltip `"Related Concept"`, independent of
any numeric field of the input. -/
theorem C7_satellites_fixed_style (records : List ConceptRecord) (year : Int) :
    ∃ sats : List VNode,
      (build records year).nodes =
        (passA (partitionByYear records year) (globalMax records)).1 ++ sats ∧
      ∀ n ∈ sats, n.size = some 10 ∧ n.color = "#555555" ∧
        n.title = "Related Concept" := by
  by_cases hp : partitionByYear records year = []
  · refine ⟨[], ?_, by simp⟩
    have hb : build records year = .emptyPartition := by simp [build, hp]
    rw [hb, hp]
    rfl
  · rw [build_eq_graph records year hp, nodes_graph]
    obtain ⟨newN, newE, newS, hn, _, _, hsat⟩ :=
      passB_extends
        { nodes := (passA (partitionByYear records year) (globalMax records)).1,
          edges := [],
          seen := (passA (partitionByYear records year) (globalMax records)).2 }
        (partitionByYear records year)
    exact ⟨newN, hn,
      fun n h => ⟨(hsat n h).1, (hsat n h).2.2.1, (hsat n h).2.2.2⟩⟩

/-- C7 witness: the satellite-style theorem applied to a concrete build that
creates one satellite node. -/
theorem C7_satellites_witness :
    ∃ sats : List VNode,
      (build c7recs 2020).nodes =
        (passA (partitionByYear c7recs 2020) (globalMax c7recs)).1 ++ sats ∧
      ∀ n ∈ sats, n.size = some 10 ∧ n.color = "#555555" ∧
        n.title = "Related Concept" :=
  C7_satellites_fixed_style c7recs 2020

/-- C8: a related entry whose resolved target id is falsy (missing, or the
empty string) is skipped whole — the Pass B step leaves the state untouched,
and consequently deleting every falsy-target entry from the input leaves the
entire build output unchanged. -/
theorem C8_falsy_target_contributes_nothing (source : String) (st : BState)
    (sib : Sibling) (records : List ConceptRecord) (year : Int)
    (h : pyFalsy (resolvedTarget sib) = true) :
    stepSibling source st sib = st ∧
    build (records.map dropFalsy) year = build records year :=
  ⟨stepSibling_falsy source st sib h, build_dropFalsy records year⟩

/-- C8 witness: the skip theorem at a structured reference with no id field,
on a concrete state and a concrete one-record table. -/
theorem C8_falsy_target_witness :
    pyFalsy (resolvedTarget (Sibling.obj none (some "NoId") none)) = true ∧
    (stepSibling "A" c8st (Sibling.obj none (some "NoId") none) = c8st ∧
      build ([mkRec "A" "Alpha" "Machine Learning" 3 2020
        [Sibling.obj none (some "NoId") none]].map dropFalsy) 2020 =
        build [mkRec "A" "Alpha" "Machine Learning" 3 2020
          [Sibling.obj none (some "NoId") none]] 2020) :=
  ⟨by decide,
    C8_falsy_target_contributes_nothing "A" c8st (Sibling.obj none (some "NoId") none)
      [mkRec "A" "Alpha" "Machine Learning" 3 2020 [Sibling.obj none (some "NoId") none]]
      2020 (by decide)⟩

/-- C9: when no record matches the selected year the build takes the normal
early-return path (modelled by `BuildResult.emptyPartition`, the
`st.warning` branch of lines 77-79, not an exception) and its node and edge
sets are both empty. -/
theorem C9_empty_partition_normal_result (records : List ConceptRecord)
    (year : Int) (h : partitionByYear records year = []) :
    build records year = .emptyPartition ∧
    (build records year).nodes = [] ∧ (build records year).edges = [] := by
  have hb : build records year = .emptyPartition := by simp [build, h]
  exact ⟨hb, by rw [hb]; rfl, by rw [hb]; rfl⟩

/-- C9 witness: the empty-partition theorem at a concrete table whose only
record is for 2020, queried at 1999. -/
theorem C9_empty_partition_witness :
    partitionByYear [c9rec] 1999 = [] ∧
    (build [c9rec] 1999 = .emptyPartition ∧
      (build [c9rec] 1999).nodes = [] ∧ (build [c9rec] 1999).edges = []) :=
  ⟨by decide, C9_empty_partition_normal_result [c9rec] 1999 (by decide)⟩

/-- C10: Pass B never rewrites an already-created node — when a related
entry's target id is already in the seen set the step appends exactly one
edge and leaves the node list, the seen set and every existing node's fields
untouched; and across a whole Pass B run the initial node list survives
unchanged as a prefix of the result. -/
theorem C10_created_nodes_never_modified (source : String) (st : BState)
    (sib : Sibling) (target : String) (part : List ConceptRecord)
    (hres : resolvedTarget sib = some target) (hne : target ≠ "")
    (hseen : target ∈ st.seen) :
    stepSibling source st sib =
      { st with edges := st.edges ++ [mkEdge source target] } ∧
    ∃ newN : List VNode, (passB st part).nodes = st.nodes ++ newN := by
  constructor
  · have hf : pyFalsy (resolvedTarget sib) = false := by
      rw [hres]
      simpa [pyFalsy] using hne
    have hgd : (resolvedTarget sib).getD "" = target := by rw [hres]; rfl
    simp [stepSibling, hf, hgd, hseen]
  · obtain ⟨newN, newE, newS, hn, _, _, _⟩ := passB_extends st part
    exact ⟨newN, hn⟩

/-- C10 witness: the frame theorem at a concrete state whose seen set
already holds the target `"X"`. -/
theorem C10_created_nodes_witness :
    stepSibling "s" c10st (Sibling.scalar "X") =
      { c10st with edges := c10st.edges ++ [mkEdge "s" "X"] } ∧
    ∃ newN : List VNode, (passB c10st []).nodes = c10st.nodes ++ newN :=
  C10_created_nodes_never_modified "s" c10st (Sibling.scalar "X") "X" []
    rfl (by decide) (by decide)

end AppGraph
